import Mathlib

/-!
Verification of the TaskForceAI TypeScript SDK's request/retry/poll engine
(`src/transport.ts`, `src/index.ts`) against its natural-language
specification.  The transport loop, error-message extraction, task poller,
completion waiter, status stream and submission-body builder are embedded as
executable Lean functions; external effects (HTTP fetch outcomes, the task
server's answers, `JSON.parse`) are supplied as explicit inputs (scripts and
oracles), so each embedded operation is a pure function of those inputs.
-/

/-- `TaskForceAIError` (transport.ts): a message plus an optional HTTP status
code (absent for network / timeout / cancellation failures). -/
structure TaskForceAIError where
  message : String
  statusCode : Option Nat
deriving DecidableEq

/-- JSON values as produced by `JSON.parse`. -/
inductive JsonValue where
  | jnull
  | jbool (b : Bool)
  | jnum (n : Int)
  | jstr (s : String)
  | jarr (elems : List JsonValue)
  | jobj (fields : List (String × JsonValue))

/-- `isRecord` (transport.ts): `typeof value === 'object' && value !== null`.
JSON arrays are objects in JavaScript, so they count as records too. -/
def isRecord : JsonValue → Bool
  | .jobj _ => true
  | .jarr _ => true
  | _ => false

/-- Property access `parsed[key]` on a parsed JSON value: only object fields
are found (array index access by a string key yields `undefined`). -/
def getField : JsonValue → String → Option JsonValue
  | .jobj fields, key => fields.lookup key
  | _, _ => none

/-- `typeof parsed[key] === 'string'` and the string itself. -/
def getStringField (v : JsonValue) (key : String) : Option String :=
  match getField v key with
  | some (.jstr s) => some s
  | _ => none

/-- The body of a non-2xx response as observed by `parseErrorMessage`:
the raw text from `response.text()` together with the result of
`JSON.parse` on it (`none` when parsing throws).  `JSON.parse` is modelled
as an oracle carried alongside the text; it ignores surrounding whitespace,
so the same oracle serves both the variant that parses the raw text and the
variant that parses the trimmed text. -/
structure ErrorBody where
  text : String
  parsed : Option JsonValue

/-- JavaScript `String.prototype.trim`, embedded as an executable function
on the underlying character list: drop leading and trailing whitespace. -/
def trimChars (s : String) : String :=
  ⟨((s.data.dropWhile Char.isWhitespace).reverse.dropWhile Char.isWhitespace).reverse⟩

/-- JavaScript `startsWith('\x7b')`: whether the first character is an
opening brace. -/
def startsWithBrace (s : String) : Bool :=
  match s.data with
  | c :: _ => c = '\x7b'
  | [] => false

/-- The literal `HTTP {status}` fallback message. -/
def httpLiteral (status : Nat) : String := "HTTP " ++ toString status

/-- `parseErrorMessage` (transport.ts lines 154-173, the variant whose
behavior the repository's tests pin): the `error` string field of a JSON
record body, else `HTTP {status}` for any other JSON record, else the raw
(untrimmed) body text when its trim is non-blank, else `HTTP {status}`.
The whole-body argument is `none` when `response.text()` itself throws. -/
def parseErrorMessage (status : Nat) (body : Option ErrorBody) : String :=
  match body with
  | none => httpLiteral status
  | some b =>
    match b.parsed with
    | some p =>
      if isRecord p then
        match getStringField p "error" with
        | some e => e
        | none => httpLiteral status
      else if 0 < (trimChars b.text).length then b.text else httpLiteral status
    | none => if 0 < (trimChars b.text).length then b.text else httpLiteral status

/-- `withHttpContext` (transport.ts lines 18-24): `HTTP {status}` optionally
suffixed with `: {detail}`. -/
def withHttpContext (status : Nat) (detail : Option String) : String :=
  match detail with
  | none => httpLiteral status
  | some d => httpLiteral status ++ ": " ++ d

/-- A string field that is present and has a non-blank trim (the checks
`typeof x === 'string' && x.trim()` in the lines-26-56 variant). -/
def nonBlankField (v : JsonValue) (key : String) : Option String :=
  match getStringField v key with
  | some s => if trimChars s = "" then none else some s
  | none => none

/-- `parseErrorMessage` (transport.ts lines 26-56, the other observed
variant): every message is prefixed with `HTTP {status}`, and a `message`
field is consulted after `error`. -/
def parseErrorMessageV1 (status : Nat) (body : Option ErrorBody) : String :=
  match body with
  | none => withHttpContext status none
  | some b =>
    let trimmed := trimChars b.text
    if trimmed = "" then withHttpContext status none
    else if startsWithBrace trimmed then
      match b.parsed with
      | none => withHttpContext status (some trimmed)
      | some p =>
        if isRecord p then
          match nonBlankField p "error" with
          | some e => withHttpContext status (some e)
          | none =>
            match nonBlankField p "message" with
            | some m => withHttpContext status (some m)
            | none => withHttpContext status (some trimmed)
        else withHttpContext status (some trimmed)
    else withHttpContext status (some trimmed)

/-- The outcome of one `fetch` attempt inside `makeRequest`, as the
surrounding code observes it. -/
inductive AttemptOutcome (α : Type) where
  | ok2xx (value : α)
  | httpError (status : Nat) (body : Option ErrorBody)
  | abortError
  | networkError (message : Option String)

/-- The `Network error: ...` message (`none` models a rejection value that
is not an `Error` instance). -/
def networkMessage : Option String → String
  | some m => "Network error: " ++ m
  | none => "Network error: Unknown error"

def DEFAULT_TIMEOUT_MS : Nat := 30000
def DEFAULT_BACKOFF_MS : Nat := 500
def DEFAULT_MAX_RETRIES : Nat := 3

/-- The observable behavior of one `makeRequest` call: its result, the
sequence of backoff sleeps (in milliseconds, in order) and the number of
fetch attempts performed. -/
structure RequestTrace (α : Type) where
  result : Except TaskForceAIError α
  delays : List Nat
  attempts : Nat

/-- The attempt loop of `makeRequest` (transport.ts lines 201-252), from a
given attempt index.  `fuel` counts the remaining loop iterations; the run
entered from attempt 0 uses `maxRetries + 1`, maintaining
`fuel = maxRetries + 1 - attempt`, so `fuel = 0` is exactly the loop exit
`attempt > maxRetries` that throws the final exhaustion error. -/
def makeRequestGo {α : Type} (script : Nat → AttemptOutcome α) (retryable : Bool)
    (maxRetries : Nat) : Nat → Nat → RequestTrace α
  | _, 0 => ⟨.error ⟨"Request failed after maximum retries", none⟩, [], 0⟩
  | attempt, fuel + 1 =>
    match script attempt with
    | .ok2xx v => ⟨.ok v, [], 1⟩
    | .httpError status body =>
      if retryable = true ∧ 500 ≤ status ∧ status < 600 ∧ attempt < maxRetries then
        let rest := makeRequestGo script retryable maxRetries (attempt + 1) fuel
        ⟨rest.result, DEFAULT_BACKOFF_MS * (attempt + 1) :: rest.delays, rest.attempts + 1⟩
      else ⟨.error ⟨parseErrorMessage status body, some status⟩, [], 1⟩
    | .abortError => ⟨.error ⟨"Request timeout", none⟩, [], 1⟩
    | .networkError m =>
      if retryable = true ∧ attempt < maxRetries then
        let rest := makeRequestGo script retryable maxRetries (attempt + 1) fuel
        ⟨rest.result, DEFAULT_BACKOFF_MS * (attempt + 1) :: rest.delays, rest.attempts + 1⟩
      else ⟨.error ⟨networkMessage m, none⟩, [], 1⟩

/-- `makeRequest` (transport.ts): run the attempt loop from attempt 0. -/
def makeRequest {α : Type} (script : Nat → AttemptOutcome α) (retryable : Bool)
    (maxRetries : Nat) : RequestTrace α :=
  makeRequestGo script retryable maxRetries 0 (maxRetries + 1)

/-- `TaskStatus` (types.ts): the fields the engine inspects.  The optional
`warnings` and `metadata` fields are never read by the transport/poll code
and are omitted from the embedding. -/
structure TaskStatus where
  taskId : String
  status : String
  result : Option String
  error : Option String
deriving DecidableEq

/-- `['completed', 'failed'].includes(s.status)` (index.ts `poll`). -/
def isTerminalStatus (s : TaskStatus) : Bool :=
  (["completed", "failed"]).contains s.status

/-- JavaScript truthiness of `s.result` (a missing or empty string is
falsy). -/
def resultTruthy (s : TaskStatus) : Bool :=
  match s.result with
  | some r => r != ""
  | none => false

/-- `s.error || 'Task failed'` (index.ts `waitForCompletion`): an absent or
empty error message falls back to the default literal. -/
def taskFailedMessage (s : TaskStatus) : String :=
  match s.error with
  | some e => if e = "" then "Task failed" else e
  | none => "Task failed"

def deadlineError : TaskForceAIError :=
  ⟨"Task did not complete within the expected time", none⟩

def pollingCancelledError : TaskForceAIError := ⟨"Task polling cancelled", none⟩

def streamCancelledError : TaskForceAIError := ⟨"Task stream cancelled", none⟩

/-- How a `poll` generator run ends: normal return after a terminal yield,
the post-loop deadline throw, the pre-fetch cancellation throw, or a
propagated `getTaskStatus` failure. -/
inductive PollEnd where
  | finished
  | deadline
  | cancelled
  | fetchError (e : TaskForceAIError)
deriving DecidableEq

/-- The observable behavior of one full `poll` generator run: the statuses
yielded (equal to the observer-callback invocations, in order), how the run
ended, the number of `getTaskStatus` calls and the number of interval
sleeps. -/
structure PollRun where
  yielded : List TaskStatus
  ending : PollEnd
  fetches : Nat
  sleeps : Nat
deriving DecidableEq

/-- The loop of `poll` (index.ts lines 297-306), with `i` the loop index
(also the fetch index) and `fuel = max - i` the remaining iterations;
`fuel = 0` is the loop exit that throws the deadline error.  `fetch i` is
the outcome of the `i`-th `getTaskStatus` call; `sig i` is whether the
external abort signal is set at the check preceding that fetch. -/
def pollGo (fetch : Nat → Except TaskForceAIError TaskStatus) (sig : Nat → Bool) :
    Nat → Nat → PollRun
  | _, 0 => ⟨[], .deadline, 0, 0⟩
  | i, fuel + 1 =>
    if sig i then ⟨[], .cancelled, 0, 0⟩
    else
      match fetch i with
      | .error e => ⟨[], .fetchError e, 1, 0⟩
      | .ok s =>
        if isTerminalStatus s then ⟨[s], .finished, 1, 0⟩
        else
          let rest := pollGo fetch sig (i + 1) fuel
          ⟨s :: rest.yielded, rest.ending, rest.fetches + 1, rest.sleeps + 1⟩

/-- One full `poll(id, ms, max, on, sig)` invocation. -/
def pollRun (fetch : Nat → Except TaskForceAIError TaskStatus) (sig : Nat → Bool)
    (max : Nat) : PollRun :=
  pollGo fetch sig 0 max

/-- The error observed by a consumer of `poll` when the yielded sequence is
exhausted without the consumer returning: a normally-finished sequence
leaves `waitForCompletion` to throw its own post-loop deadline error, and a
generator throw propagates unchanged. -/
def endingError : PollEnd → TaskForceAIError
  | .finished => deadlineError
  | .deadline => deadlineError
  | .cancelled => pollingCancelledError
  | .fetchError e => e

/-- The `for await` body of `waitForCompletion` (index.ts lines 315-319)
over the yielded statuses.  The consumer only stops early at terminal
statuses, where the poller also stops, so consuming the eager `PollRun` is
faithful to the lazy generator. -/
def consumeWait : List TaskStatus → PollEnd → Except TaskForceAIError TaskStatus
  | [], ending => .error (endingError ending)
  | s :: rest, ending =>
    if s.status == "completed" && resultTruthy s then .ok s
    else if s.status == "failed" then .error ⟨taskFailedMessage s, none⟩
    else consumeWait rest ending

/-- `waitForCompletion` (index.ts): drive one poll run and fold it. -/
def waitForCompletion (fetch : Nat → Except TaskForceAIError TaskStatus)
    (sig : Nat → Bool) (max : Nat) : Except TaskForceAIError TaskStatus :=
  consumeWait (pollRun fetch sig max).yielded (pollRun fetch sig max).ending

/-- What a single pull of an iterator can produce: a yielded status, normal
completion, or a raised error. -/
inductive PullOutcome where
  | emit (s : TaskStatus)
  | done
  | raises (e : TaskForceAIError)
deriving DecidableEq

/-- Whether a fetch outcome was a terminal status (the state in which the
`poll` generator, resumed after that yield, returns). -/
def okTerminal : Except TaskForceAIError TaskStatus → Bool
  | .ok s => isTerminalStatus s
  | .error _ => false

/-- The effects of one pull: its outcome, the number of `getTaskStatus`
calls it performed, and the observer-callback invocations it made. -/
structure PullEffects where
  outcome : PullOutcome
  fetches : Nat
  callbacks : List TaskStatus
deriving DecidableEq

/-- The body of one active `poll` iteration at loop index `k` (signal
check, fetch, observer callback, yield). -/
def pollPullStep (fetch : Nat → Except TaskForceAIError TaskStatus)
    (sig : Nat → Bool) (max k : Nat) : PullEffects :=
  if max ≤ k then ⟨.raises deadlineError, 0, []⟩
  else if sig k then ⟨.raises pollingCancelledError, 0, []⟩
  else
    match fetch k with
    | .error e => ⟨.raises e, 1, []⟩
    | .ok s => ⟨.emit s, 1, [s]⟩

/-- The `k`-th pull of a `poll` generator (k yields already delivered): if
the previous yield was terminal the generator returns; otherwise (after the
sleep) the loop either exits with the deadline throw or runs one more
iteration. -/
def pollPull (fetch : Nat → Except TaskForceAIError TaskStatus)
    (sig : Nat → Bool) (max : Nat) : Nat → PullEffects
  | 0 => pollPullStep fetch sig max 0
  | k + 1 =>
    if okTerminal (fetch k) then ⟨.done, 0, []⟩
    else pollPullStep fetch sig max (k + 1)

/-- One pull of the iterator returned by `streamTaskStatus` (index.ts lines
345-350): the wrapped poll advances first; when it yields, the cancel flag
is checked and either the stream-cancelled error is raised or the value is
yielded onward; a poll throw or return passes through unchanged. -/
def streamPull (fetch : Nat → Except TaskForceAIError TaskStatus)
    (sig : Nat → Bool) (max k : Nat) (cancelFlag : Bool) : PullEffects :=
  let p := pollPull fetch sig max k
  match p.outcome with
  | .emit _ =>
    if cancelFlag then ⟨.raises streamCancelledError, p.fetches, p.callbacks⟩ else p
  | _ => p

/-- The stream handle's `cancel` operation: `cancel: () => (cancel = true)`
on the captured flag. -/
def cancelOp (_flag : Bool) : Bool := true

/-- Consuming one freshly created iterator of a stream handle to
exhaustion.  Each call to the handle's async-iterator method creates a new
generator that invokes `this.poll` afresh (local fetch index starting at
0); `served` is the number of status fetches the live server has already
answered for this task, so the fresh poll's `i`-th fetch receives the
server's `(served + i)`-th answer. -/
def iterateStream (server : Nat → Except TaskForceAIError TaskStatus)
    (sig : Nat → Bool) (max served : Nat) : PollRun :=
  pollRun (fun i => server (served + i)) (fun i => sig (served + i)) max

/-- The two poll runs observed when a stream handle is consumed twice
(without `cancel`): the first consumption, then a second consumption whose
fresh poll starts with the server state the first one left behind. -/
structure TwoRuns where
  first : PollRun
  second : PollRun
deriving DecidableEq

def consumeStreamTwice (server : Nat → Except TaskForceAIError TaskStatus)
    (sig : Nat → Bool) (max : Nat) : TwoRuns :=
  let r1 := iterateStream server sig max 0
  ⟨r1, iterateStream server sig max r1.fetches⟩

/-- JavaScript truthiness of a JSON value (`if (v)` in `submitTask`). -/
def jsTruthy : JsonValue → Bool
  | .jnull => false
  | .jbool b => b
  | .jnum n => n != 0
  | .jstr s => s != ""
  | .jarr _ => true
  | .jobj _ => true

/-- The request body built by `submitTask` (index.ts lines 268-277):
`{ prompt, options: {...}, vercelAiKey? }`. -/
structure SubmitBody where
  prompt : String
  options : List (String × JsonValue)
  vercelAiKey : Option JsonValue

/-- The body-building (and prompt-validation) part of `submitTask`.  The
caller's options object is an association list with JavaScript-object key
uniqueness not assumed (lookup takes the first occurrence).  Destructuring
pulls out `vercelAiKey`, `silent` (default `false`) and `mock` (default
`false`); the rest is spread after the two defaults inside `options`; a
truthy `vercelAiKey` is promoted to a top-level field. -/
def submitTask (p : String) (o : List (String × JsonValue)) :
    Except TaskForceAIError SubmitBody :=
  if trimChars p = "" then .error ⟨"Prompt must be a non-empty string", none⟩
  else
    let v := o.lookup "vercelAiKey"
    let s := (o.lookup "silent").getD (.jbool false)
    let m := (o.lookup "mock").getD (.jbool false)
    let rest := o.filter
      (fun kv => kv.1 != "vercelAiKey" && kv.1 != "silent" && kv.1 != "mock")
    .ok ⟨p, ("silent", s) :: ("mock", m) :: rest,
      match v with
      | some val => if jsTruthy val then some val else none
      | none => none⟩

/-- A concrete task server used to observe stream re-consumption: its `n`-th
status answer (counted across all fetches it ever serves) alternates between
a processing phase and a completed phase with distinct results. -/
def twoPhaseServer : Nat → Except TaskForceAIError TaskStatus := fun n =>
  .ok (if n = 0 then ⟨"t", "processing", none, none⟩
       else if n = 1 then ⟨"t", "completed", some "r1", none⟩
       else if n = 2 then ⟨"t", "processing", none, none⟩
       else ⟨"t", "completed", some "r2", none⟩)

lemma makeRequestGo_zero {α : Type} (script : Nat → AttemptOutcome α) (retryable : Bool)
    (maxRetries attempt : Nat) :
    makeRequestGo script retryable maxRetries attempt 0
      = ⟨.error ⟨"Request failed after maximum retries", none⟩, [], 0⟩ := rfl

lemma makeRequestGo_ok {α : Type} (script : Nat → AttemptOutcome α) (retryable : Bool)
    (maxRetries attempt fuel : Nat) (v : α) (h : script attempt = .ok2xx v) :
    makeRequestGo script retryable maxRetries attempt (fuel + 1) = ⟨.ok v, [], 1⟩ := by
  simp [makeRequestGo, h]

lemma makeRequestGo_http {α : Type} (script : Nat → AttemptOutcome α) (retryable : Bool)
    (maxRetries attempt fuel status : Nat) (body : Option ErrorBody)
    (h : script attempt = .httpError status body) :
    makeRequestGo script retryable maxRetries attempt (fuel + 1)
      = if retryable = true ∧ 500 ≤ status ∧ status < 600 ∧ attempt < maxRetries then
          ⟨(makeRequestGo script retryable maxRetries (attempt + 1) fuel).result,
           DEFAULT_BACKOFF_MS * (attempt + 1)
             :: (makeRequestGo script retryable maxRetries (attempt + 1) fuel).delays,
           (makeRequestGo script retryable maxRetries (attempt + 1) fuel).attempts + 1⟩
        else ⟨.error ⟨parseErrorMessage status body, some status⟩, [], 1⟩ := by
  simp only [makeRequestGo, h]

lemma makeRequestGo_abort {α : Type} (script : Nat → AttemptOutcome α) (retryable : Bool)
    (maxRetries attempt fuel : Nat) (h : script attempt = .abortError) :
    makeRequestGo script retryable maxRetries attempt (fuel + 1)
      = ⟨.error ⟨"Request timeout", none⟩, [], 1⟩ := by
  simp [makeRequestGo, h]

lemma makeRequestGo_network {α : Type} (script : Nat → AttemptOutcome α) (retryable : Bool)
    (maxRetries attempt fuel : Nat) (m : Option String) (h : script attempt = .networkError m) :
    makeRequestGo script retryable maxRetries attempt (fuel + 1)
      = if retryable = true ∧ attempt < maxRetries then
          ⟨(makeRequestGo script retryable maxRetries (attempt + 1) fuel).result,
           DEFAULT_BACKOFF_MS * (attempt + 1)
             :: (makeRequestGo script retryable maxRetries (attempt + 1) fuel).delays,
           (makeRequestGo script retryable maxRetries (attempt + 1) fuel).attempts + 1⟩
        else ⟨.error ⟨networkMessage m, none⟩, [], 1⟩ := by
  simp only [makeRequestGo, h]

lemma makeRequestGo_attempts_pos {α : Type} (script : Nat → AttemptOutcome α)
    (retryable : Bool) (maxRetries attempt fuel : Nat) :
    1 ≤ (makeRequestGo script retryable maxRetries attempt (fuel + 1)).attempts := by
  cases h : script attempt with
  | ok2xx v => simp [makeRequestGo_ok script retryable maxRetries attempt fuel v h]
  | httpError status body =>
    rw [makeRequestGo_http script retryable maxRetries attempt fuel status body h]
    split <;> simp
  | abortError => simp [makeRequestGo_abort script retryable maxRetries attempt fuel h]
  | networkError m =>
    rw [makeRequestGo_network script retryable maxRetries attempt fuel m h]
    split <;> simp

lemma makeRequestGo_all5xx {α : Type} (script : Nat → AttemptOutcome α)
    (st : Nat → Nat) (bd : Nat → Option ErrorBody) (maxRetries : Nat)
    (hall : ∀ n, n ≤ maxRetries →
      script n = .httpError (st n) (bd n) ∧ 500 ≤ st n ∧ st n < 600) :
    ∀ k attempt, attempt + k = maxRetries →
      makeRequestGo script true maxRetries attempt (k + 1) =
        ⟨.error ⟨parseErrorMessage (st maxRetries) (bd maxRetries), some (st maxRetries)⟩,
         (List.range k).map (fun i => DEFAULT_BACKOFF_MS * (attempt + 1 + i)), k + 1⟩ := by
  intro k
  induction k with
  | zero =>
    intro attempt h
    obtain ⟨hs, h5, h6⟩ := hall attempt (by omega)
    have hlast : attempt = maxRetries := by omega
    rw [makeRequestGo_http script true maxRetries attempt 0 (st attempt) (bd attempt) hs,
      if_neg (by rintro ⟨-, -, -, hlt⟩; omega)]
    subst hlast
    simp
  | succ k ih =>
    intro attempt h
    obtain ⟨hs, h5, h6⟩ := hall attempt (by omega)
    have hmap : (List.range (k + 1)).map (fun i => DEFAULT_BACKOFF_MS * (attempt + 1 + i))
        = DEFAULT_BACKOFF_MS * (attempt + 1)
            :: (List.range k).map (fun i => DEFAULT_BACKOFF_MS * (attempt + 1 + 1 + i)) := by
      have h0 : DEFAULT_BACKOFF_MS * (attempt + 1 + 0) = DEFAULT_BACKOFF_MS * (attempt + 1) := by
        ring
      have hfun : ((fun i => DEFAULT_BACKOFF_MS * (attempt + 1 + i)) ∘ Nat.succ)
          = fun i => DEFAULT_BACKOFF_MS * (attempt + 1 + 1 + i) := by
        funext i
        simp only [Function.comp_apply, Nat.succ_eq_add_one]
        ring
      rw [List.range_succ_eq_map, List.map_cons, List.map_map, hfun, h0]
    rw [makeRequestGo_http script true maxRetries attempt (k + 1) (st attempt) (bd attempt) hs,
      if_pos ⟨rfl, h5, h6, by omega⟩, ih (attempt + 1) (by omega), hmap]

lemma pollGo_cancelled (fetch : Nat → Except TaskForceAIError TaskStatus) (sig : Nat → Bool)
    (i fuel : Nat) (hsig : sig i = true) :
    pollGo fetch sig i (fuel + 1) = ⟨[], .cancelled, 0, 0⟩ := by
  simp [pollGo, hsig]

lemma pollGo_fetchError (fetch : Nat → Except TaskForceAIError TaskStatus) (sig : Nat → Bool)
    (i fuel : Nat) (e : TaskForceAIError) (hsig : sig i = false) (hf : fetch i = .error e) :
    pollGo fetch sig i (fuel + 1) = ⟨[], .fetchError e, 1, 0⟩ := by
  simp [pollGo, hsig, hf]

lemma pollGo_terminal (fetch : Nat → Except TaskForceAIError TaskStatus) (sig : Nat → Bool)
    (i fuel : Nat) (s : TaskStatus) (hsig : sig i = false) (hf : fetch i = .ok s)
    (ht : isTerminalStatus s = true) :
    pollGo fetch sig i (fuel + 1) = ⟨[s], .finished, 1, 0⟩ := by
  simp [pollGo, hsig, hf, ht]

lemma pollGo_step (fetch : Nat → Except TaskForceAIError TaskStatus) (sig : Nat → Bool)
    (i fuel : Nat) (s : TaskStatus) (hsig : sig i = false) (hf : fetch i = .ok s)
    (ht : isTerminalStatus s = false) :
    pollGo fetch sig i (fuel + 1)
      = ⟨s :: (pollGo fetch sig (i + 1) fuel).yielded,
         (pollGo fetch sig (i + 1) fuel).ending,
         (pollGo fetch sig (i + 1) fuel).fetches + 1,
         (pollGo fetch sig (i + 1) fuel).sleeps + 1⟩ := by
  simp [pollGo, hsig, hf, ht]

lemma pollGo_bounds (fetch : Nat → Except TaskForceAIError TaskStatus)
    (sig : Nat → Bool) : ∀ (fuel i : Nat),
    (pollGo fetch sig i fuel).yielded.length ≤ fuel ∧
    (pollGo fetch sig i fuel).fetches ≤ fuel := by
  intro fuel
  induction fuel with
  | zero => intro i; simp [pollGo]
  | succ fuel ih =>
    intro i
    cases hsig : sig i with
    | true => simp [pollGo_cancelled fetch sig i fuel hsig]
    | false =>
      cases hf : fetch i with
      | error e => simp [pollGo_fetchError fetch sig i fuel e hsig hf]
      | ok s =>
        cases ht : isTerminalStatus s with
        | true => simp [pollGo_terminal fetch sig i fuel s hsig hf ht]
        | false =>
          rw [pollGo_step fetch sig i fuel s hsig hf ht]
          have h1 := (ih (i + 1)).1
          have h2 := (ih (i + 1)).2
          constructor
          · simp only [List.length_cons]
            omega
          · simp only []
            omega

lemma pollGo_exhaust (fetch : Nat → Except TaskForceAIError TaskStatus)
    (sig : Nat → Bool) : ∀ (fuel i : Nat),
    (∀ m, m < fuel → sig (i + m) = false ∧
       ∃ t, fetch (i + m) = .ok t ∧ isTerminalStatus t = false) →
    (pollGo fetch sig i fuel).ending = .deadline ∧
    (pollGo fetch sig i fuel).fetches = fuel ∧
    (pollGo fetch sig i fuel).yielded.length = fuel ∧
    (∀ t ∈ (pollGo fetch sig i fuel).yielded, isTerminalStatus t = false) := by
  intro fuel
  induction fuel with
  | zero => intro i _; simp [pollGo]
  | succ fuel ih =>
    intro i h
    obtain ⟨hsig, t, hf, hter⟩ := by simpa using h 0 (by omega)
    have hrest := ih (i + 1) (by
      intro m hm
      have hmem := h (m + 1) (by omega)
      have heq : i + (m + 1) = i + 1 + m := by omega
      rw [heq] at hmem
      exact hmem)
    rw [pollGo_step fetch sig i fuel t hsig hf hter]
    refine ⟨hrest.1, by simp [hrest.2.1], by simp [hrest.2.2.1], ?_⟩
    intro u hu
    rcases List.mem_cons.mp hu with h1 | h2
    · exact h1 ▸ hter
    · exact hrest.2.2.2 u h2

lemma isTerminalStatus_false (s : TaskStatus) (h : isTerminalStatus s = false) :
    (s.status == "completed") = false ∧ (s.status == "failed") = false := by
  simp only [isTerminalStatus, List.contains_cons, List.contains_nil, Bool.or_false,
    Bool.or_eq_false_iff] at h
  exact h

lemma isTerminalStatus_completed (s : TaskStatus) (h : s.status = "completed") :
    isTerminalStatus s = true := by
  simp [isTerminalStatus, h]

lemma consumeWait_nonterminal : ∀ (l : List TaskStatus) (e : PollEnd),
    (∀ t ∈ l, isTerminalStatus t = false) →
    consumeWait l e = .error (endingError e) := by
  intro l e h
  induction l with
  | nil => rfl
  | cons s rest ih =>
    have hs := isTerminalStatus_false s (h s (by simp))
    simp only [consumeWait, hs.1, hs.2, Bool.false_and, Bool.false_eq_true, if_false]
    exact ih (fun t ht => h t (by simp [ht]))

lemma waitConsume_shift (fetch : Nat → Except TaskForceAIError TaskStatus)
    (sig : Nat → Bool) : ∀ (j i fuel : Nat),
    (∀ m, m < j → sig (i + m) = false ∧
       ∃ t, fetch (i + m) = .ok t ∧ isTerminalStatus t = false) →
    j < fuel →
    consumeWait (pollGo fetch sig i fuel).yielded (pollGo fetch sig i fuel).ending
      = consumeWait (pollGo fetch sig (i + j) (fuel - j)).yielded
          (pollGo fetch sig (i + j) (fuel - j)).ending := by
  intro j
  induction j with
  | zero => intro i fuel _ _; simp
  | succ j ih =>
    intro i fuel h hlt
    obtain ⟨f, rfl⟩ : ∃ f, fuel = f + 1 := ⟨fuel - 1, by omega⟩
    obtain ⟨hsig, t, hf, hter⟩ := by simpa using h 0 (by omega)
    have hbeq := isTerminalStatus_false t hter
    rw [pollGo_step fetch sig i f t hsig hf hter]
    simp only [consumeWait, hbeq.1, hbeq.2, Bool.false_and, Bool.false_eq_true, if_false]
    have hshift := ih (i + 1) f (by
      intro m hm
      have hmem := h (m + 1) (by omega)
      have heq : i + (m + 1) = i + 1 + m := by omega
      rw [heq] at hmem
      exact hmem) (by omega)
    have he1 : i + 1 + j = i + (j + 1) := by omega
    have he2 : f - j = f + 1 - (j + 1) := by omega
    rw [he1, he2] at hshift
    exact hshift

lemma lookup_none_of_keys_ne {β : Type} (k : String) :
    ∀ (l : List (String × β)), (∀ kv ∈ l, kv.1 ≠ k) → l.lookup k = none := by
  intro l h
  induction l with
  | nil => rfl
  | cons kv rest ih =>
    have hk : (k == kv.1) = false := beq_eq_false_iff_ne.mpr (Ne.symm (h kv (by simp)))
    simp only [List.lookup, hk]
    exact ih (fun u hu => h u (by simp [hu]))

lemma lookup_filter_irrelevant {β : Type} (k : String) (hk1 : k ≠ "vercelAiKey")
    (hk2 : k ≠ "silent") (hk3 : k ≠ "mock") :
    ∀ (l : List (String × β)),
      (l.filter
          (fun kv => kv.1 != "vercelAiKey" && kv.1 != "silent" && kv.1 != "mock")).lookup k
        = l.lookup k := by
  intro l
  induction l with
  | nil => rfl
  | cons kv rest ih =>
    by_cases hkk : k = kv.1
    · have hpred : (kv.1 != "vercelAiKey" && kv.1 != "silent" && kv.1 != "mock") = true := by
        have h1 : kv.1 ≠ "vercelAiKey" := hkk ▸ hk1
        have h2 : kv.1 ≠ "silent" := hkk ▸ hk2
        have h3 : kv.1 ≠ "mock" := hkk ▸ hk3
        simp [bne_iff_ne, h1, h2, h3]
      have hbeq : (k == kv.1) = true := beq_iff_eq.mpr hkk
      simp [List.filter_cons, hpred, List.lookup, hbeq]
    · have hbeq : (k == kv.1) = false := beq_eq_false_iff_ne.mpr hkk
      cases hpred : (kv.1 != "vercelAiKey" && kv.1 != "silent" && kv.1 != "mock") with
      | true => simp [List.filter_cons, hpred, List.lookup, hbeq, ih]
      | false => simp [List.filter_cons, hpred, List.lookup, hbeq, ih]

/-- C1 (counterexample): when every attempt of a retryable call fails with
HTTP 500, `makeRequest` raises the last attempt's concrete error
(`HTTP 500` with status code 500), not the distinct terminal
`Request failed after maximum retries` error the claim requires. -/
theorem c1_exhaustion_counterexample :
    (makeRequest (fun _ => (AttemptOutcome.httpError 500 none : AttemptOutcome String))
        true DEFAULT_MAX_RETRIES).result
      = .error ⟨"HTTP 500", some 500⟩
    ∧ (⟨"HTTP 500", some 500⟩ : TaskForceAIError)
        ≠ ⟨"Request failed after maximum retries", none⟩ :=
  ⟨rfl, by decide⟩

/-- C1 (amended): if every attempt up to and including `maxRetries` fails
with a retry-eligible 5xx response on a retryable call, `makeRequest`
performs all `maxRetries + 1` attempts and then propagates the last
attempt's concrete error (its extracted message together with its status
code); the distinct exhaustion error is not raised — the loop's fall-through
throw is unreachable in this scenario. -/
theorem c1_last_attempt_error_propagates {α : Type} (script : Nat → AttemptOutcome α)
    (st : Nat → Nat) (bd : Nat → Option ErrorBody) (maxRetries : Nat)
    (hall : ∀ n, n ≤ maxRetries →
      script n = .httpError (st n) (bd n) ∧ 500 ≤ st n ∧ st n < 600) :
    (makeRequest script true maxRetries).result
      = .error ⟨parseErrorMessage (st maxRetries) (bd maxRetries), some (st maxRetries)⟩
    ∧ (makeRequest script true maxRetries).attempts = maxRetries + 1 := by
  have h := makeRequestGo_all5xx script st bd maxRetries hall maxRetries 0 (by omega)
  unfold makeRequest
  rw [h]
  exact ⟨rfl, rfl⟩

/-- Witness for `c1_last_attempt_error_propagates`: a concrete all-500
script with `maxRetries = 1`. -/
theorem c1_last_attempt_error_propagates_witness :
    (∀ n, n ≤ 1 →
      (fun _ => (AttemptOutcome.httpError 500 none : AttemptOutcome String)) n
          = .httpError ((fun _ => 500) n) ((fun _ => (none : Option ErrorBody)) n)
        ∧ 500 ≤ (fun _ => 500 : Nat → Nat) n ∧ (fun _ => 500 : Nat → Nat) n < 600)
    ∧ (makeRequest (fun _ => (AttemptOutcome.httpError 500 none : AttemptOutcome String))
          true 1).result = .error ⟨"HTTP 500", some 500⟩ := by
  refine ⟨fun n _ => ⟨rfl, le_refl 500, by norm_num⟩, ?_⟩
  exact (c1_last_attempt_error_propagates
    (fun _ => (AttemptOutcome.httpError 500 none : AttemptOutcome String))
    (fun _ => 500) (fun _ => none) 1 (fun n _ => ⟨rfl, le_refl 500, by norm_num⟩)).1

/-- C2 (counterexample): a 500 response with body `{"message":"oops"}` is
mapped to `HTTP 500`, not to `oops` — the `message` field has no place in
the implemented extraction (exactly what the repository's own test
asserts); a non-JSON body is returned untrimmed; and the other observed
extraction variant prefixes `HTTP {status}: `, so under it even the
claim's own 404 example fails. -/
theorem c2_extraction_counterexample :
    parseErrorMessage 500
        (some ⟨"\x7b\"message\":\"oops\"\x7d", some (.jobj [("message", .jstr "oops")])⟩)
      = "HTTP 500"
    ∧ "HTTP 500" ≠ "oops"
    ∧ parseErrorMessage 400 (some ⟨" x ", none⟩) = " x "
    ∧ (" x " : String) ≠ "x"
    ∧ parseErrorMessageV1 404
        (some ⟨"\x7b\"error\":\"Not found\"\x7d", some (.jobj [("error", .jstr "Not found")])⟩)
      = "HTTP 404: Not found"
    ∧ "HTTP 404: Not found" ≠ "Not found" :=
  ⟨rfl, by decide, rfl, by decide, rfl, by decide⟩

/-- C2 (amended): the extraction precedence actually implemented (the
variant at transport.ts lines 154-173, whose behavior the repository's own
tests assert): a JSON record's `error` string field is used verbatim; any
other successfully parsed JSON record maps to `HTTP {status}` (a `message`
field is never consulted); a non-record or unparsable body whose trim is
non-blank yields the raw (untrimmed) body text; everything else — blank
body, unreadable body — yields the literal `HTTP {status}`.  The claim's
404 example does hold: a failure body `{"error":"Not found"}` with status
404 produces the error `Not found` with status code 404. -/
theorem c2_error_extraction (status : Nat) :
    (∀ (b : ErrorBody) (p : JsonValue) (e : String),
        b.parsed = some p → isRecord p = true → getStringField p "error" = some e →
        parseErrorMessage status (some b) = e)
    ∧ (∀ (b : ErrorBody) (p : JsonValue),
        b.parsed = some p → isRecord p = true → getStringField p "error" = none →
        parseErrorMessage status (some b) = httpLiteral status)
    ∧ (∀ (b : ErrorBody), b.parsed = none → 0 < (trimChars b.text).length →
        parseErrorMessage status (some b) = b.text)
    ∧ (∀ (b : ErrorBody) (p : JsonValue),
        b.parsed = some p → isRecord p = false → 0 < (trimChars b.text).length →
        parseErrorMessage status (some b) = b.text)
    ∧ (∀ (b : ErrorBody), b.parsed = none → (trimChars b.text).length = 0 →
        parseErrorMessage status (some b) = httpLiteral status)
    ∧ parseErrorMessage status none = httpLiteral status
    ∧ (makeRequest (fun _ => (AttemptOutcome.httpError 404
          (some ⟨"\x7b\"error\":\"Not found\"\x7d",
            some (.jobj [("error", .jstr "Not found")])⟩) : AttemptOutcome String))
          true DEFAULT_MAX_RETRIES).result
        = .error ⟨"Not found", some 404⟩ := by
  refine ⟨?_, ?_, ?_, ?_, ?_, rfl, rfl⟩
  · intro b p e hp hrec he
    simp [parseErrorMessage, hp, hrec, he]
  · intro b p hp hrec he
    simp [parseErrorMessage, hp, hrec, he]
  · intro b hp hlen
    simp [parseErrorMessage, hp, hlen]
  · intro b p hp hrec hlen
    simp [parseErrorMessage, hp, hrec, hlen]
  · intro b hp hlen
    simp [parseErrorMessage, hp, hlen]

/-- Witness for `c2_error_extraction`: the `error`-field clause at status
418 with a concrete record body. -/
theorem c2_error_extraction_witness :
    ((⟨"x", some (.jobj [("error", .jstr "E")])⟩ : ErrorBody).parsed
        = some (.jobj [("error", .jstr "E")])
      ∧ isRecord (.jobj [("error", .jstr "E")]) = true
      ∧ getStringField (.jobj [("error", .jstr "E")]) "error" = some "E")
    ∧ parseErrorMessage 418 (some ⟨"x", some (.jobj [("error", .jstr "E")])⟩) = "E" := by
  refine ⟨⟨rfl, rfl, rfl⟩, ?_⟩
  exact (c2_error_extraction 418).1 ⟨"x", some (.jobj [("error", .jstr "E")])⟩
    (.jobj [("error", .jstr "E")]) "E" rfl rfl rfl

/-- C4: an attempt that fails with an `AbortError` (the composite
timeout / external-signal cancellation condition) makes `makeRequest`
raise the `Request timeout` error with no status code immediately — no
retry happens regardless of the `retryable` flag and of the remaining
attempt budget, both at any attempt index inside the loop and for the
whole call. -/
theorem c4_abort_timeout {α : Type} (script : Nat → AttemptOutcome α)
    (retryable : Bool) (maxRetries attempt fuel : Nat) :
    (script attempt = .abortError →
      makeRequestGo script retryable maxRetries attempt (fuel + 1)
        = ⟨.error ⟨"Request timeout", none⟩, [], 1⟩)
    ∧ (script 0 = .abortError →
      makeRequest script retryable maxRetries
        = ⟨.error ⟨"Request timeout", none⟩, [], 1⟩) := by
  constructor
  · intro h
    exact makeRequestGo_abort script retryable maxRetries attempt fuel h
  · intro h
    exact makeRequestGo_abort script retryable maxRetries 0 maxRetries h

/-- Witness for `c4_abort_timeout`: a call whose first attempt aborts. -/
theorem c4_abort_timeout_witness :
    ((fun _ => (AttemptOutcome.abortError : AttemptOutcome String)) 0 = .abortError)
    ∧ makeRequest (fun _ => (AttemptOutcome.abortError : AttemptOutcome String)) true 3
        = ⟨.error ⟨"Request timeout", none⟩, [], 1⟩ :=
  ⟨rfl, (c4_abort_timeout (fun _ => (AttemptOutcome.abortError : AttemptOutcome String))
      true 3 0 0).2 rfl⟩

/-- C3: an HTTP failure at any attempt of `makeRequest` is retried exactly
when the call is retryable, the status lies in `[500, 600)` and the
attempt budget is not exhausted; the sleep before re-attempt `n + 1` is
exactly `500 * (n + 1)` milliseconds and successive backoff delays are
strictly increasing; a 404 response is never retried and fails the call at
its first occurrence even on a retryable call. -/
theorem c3_retry_policy {α : Type} :
    DEFAULT_BACKOFF_MS = 500
    ∧ (∀ (script : Nat → AttemptOutcome α) (retryable : Bool)
         (maxRetries attempt status : Nat) (body : Option ErrorBody),
        attempt ≤ maxRetries → script attempt = .httpError status body →
        (2 ≤ (makeRequestGo script retryable maxRetries attempt
                (maxRetries + 1 - attempt)).attempts
          ↔ (retryable = true ∧ 500 ≤ status ∧ status < 600 ∧ attempt < maxRetries))
        ∧ ((retryable = true ∧ 500 ≤ status ∧ status < 600 ∧ attempt < maxRetries) →
            (makeRequestGo script retryable maxRetries attempt
                (maxRetries + 1 - attempt)).delays.head?
              = some (DEFAULT_BACKOFF_MS * (attempt + 1))))
    ∧ (∀ (script : Nat → AttemptOutcome α) (st : Nat → Nat)
         (bd : Nat → Option ErrorBody) (maxRetries : Nat),
        (∀ n, n ≤ maxRetries →
          script n = .httpError (st n) (bd n) ∧ 500 ≤ st n ∧ st n < 600) →
        (makeRequest script true maxRetries).delays
            = (List.range maxRetries).map (fun i => DEFAULT_BACKOFF_MS * (i + 1))
          ∧ List.Pairwise (· < ·) (makeRequest script true maxRetries).delays)
    ∧ (∀ (script : Nat → AttemptOutcome α) (retryable : Bool)
         (maxRetries attempt : Nat) (body : Option ErrorBody),
        attempt ≤ maxRetries → script attempt = .httpError 404 body →
        makeRequestGo script retryable maxRetries attempt (maxRetries + 1 - attempt)
          = ⟨.error ⟨parseErrorMessage 404 body, some 404⟩, [], 1⟩) := by
  refine ⟨rfl, ?_, ?_, ?_⟩
  · intro script retryable maxRetries attempt status body hle hs
    obtain ⟨f, hf⟩ : ∃ f, maxRetries + 1 - attempt = f + 1 :=
      ⟨maxRetries - attempt, by omega⟩
    rw [hf, makeRequestGo_http script retryable maxRetries attempt f status body hs]
    constructor
    · constructor
      · intro h2
        by_contra hc
        rw [if_neg hc] at h2
        simp at h2
      · intro hc
        rw [if_pos hc]
        obtain ⟨g, hg⟩ : ∃ g, f = g + 1 := ⟨f - 1, by omega⟩
        rw [hg]
        dsimp only
        have := makeRequestGo_attempts_pos script retryable maxRetries (attempt + 1) g
        omega
    · intro hc
      rw [if_pos hc]
      rfl
  · intro script st bd maxRetries hall
    have h := makeRequestGo_all5xx script st bd maxRetries hall maxRetries 0 (by omega)
    have hfun : (fun i => DEFAULT_BACKOFF_MS * (0 + 1 + i))
        = fun i : Nat => DEFAULT_BACKOFF_MS * (i + 1) := by
      funext i
      ring
    have hdel : (makeRequest script true maxRetries).delays
        = (List.range maxRetries).map (fun i => DEFAULT_BACKOFF_MS * (i + 1)) := by
      unfold makeRequest
      rw [h]
      dsimp only
      rw [hfun]
    refine ⟨hdel, ?_⟩
    rw [hdel, List.pairwise_map]
    refine (List.pairwise_lt_range maxRetries).imp (fun {a b} hab => ?_)
    have hB : DEFAULT_BACKOFF_MS = 500 := rfl
    rw [hB]
    omega
  · intro script retryable maxRetries attempt body hle hs
    obtain ⟨f, hf⟩ : ∃ f, maxRetries + 1 - attempt = f + 1 :=
      ⟨maxRetries - attempt, by omega⟩
    rw [hf, makeRequestGo_http script retryable maxRetries attempt f 404 body hs,
      if_neg (by rintro ⟨-, h500, -, -⟩; omega)]

/-- Witness for `c3_retry_policy`: a 500 response at attempt 0 of a
retryable call with budget 2 is retried (at least two attempts happen and
the delays are 500 then 1000 ms); a 404 response fails at once. -/
theorem c3_retry_policy_witness :
    ((0 : Nat) ≤ 2
      ∧ (fun _ => (AttemptOutcome.httpError 500 none : AttemptOutcome String)) 0
          = .httpError 500 none)
    ∧ 2 ≤ (makeRequestGo
          (fun _ => (AttemptOutcome.httpError 500 none : AttemptOutcome String))
          true 2 0 (2 + 1 - 0)).attempts
    ∧ (makeRequest (fun _ => (AttemptOutcome.httpError 500 none : AttemptOutcome String))
          true 2).delays = [500, 1000]
    ∧ makeRequestGo (fun _ => (AttemptOutcome.httpError 404 none : AttemptOutcome String))
          true 2 0 (2 + 1 - 0)
        = ⟨.error ⟨"HTTP 404", some 404⟩, [], 1⟩ := by
  refine ⟨⟨by omega, rfl⟩, ?_, ?_, ?_⟩
  · exact ((c3_retry_policy.2.1
        (fun _ => (AttemptOutcome.httpError 500 none : AttemptOutcome String))
        true 2 0 500 none (by omega) rfl).1).mpr ⟨rfl, by omega, by omega, by omega⟩
  · have h := (c3_retry_policy.2.2.1
        (fun _ => (AttemptOutcome.httpError 500 none : AttemptOutcome String))
        (fun _ => 500) (fun _ => none) 2
        (fun n _ => ⟨rfl, le_refl 500, by norm_num⟩)).1
    rw [h]
    rfl
  · have h := c3_retry_policy.2.2.2
        (fun _ => (AttemptOutcome.httpError 404 none : AttemptOutcome String))
        true 2 0 none (by omega) rfl
    rw [h]
    rfl

/-- C5: a poll run yields at most `maxAttempts` statuses and performs at
most `maxAttempts` fetches; an iteration whose fetched status is terminal
(`completed` or `failed`) ends the run immediately after that single yield,
with no further fetch and no sleep; and when all `maxAttempts` fetches
return non-terminal statuses the run ends with the deadline-exceeded throw
after the loop, having fetched exactly `maxAttempts` times and yielded one
status per fetch. -/
theorem c5_poll_contract (fetch : Nat → Except TaskForceAIError TaskStatus)
    (sig : Nat → Bool) (max : Nat) :
    ((pollRun fetch sig max).yielded.length ≤ max
      ∧ (pollRun fetch sig max).fetches ≤ max)
    ∧ (∀ (i fuel : Nat) (s : TaskStatus), sig i = false → fetch i = .ok s →
        isTerminalStatus s = true →
        pollGo fetch sig i (fuel + 1) = ⟨[s], .finished, 1, 0⟩)
    ∧ ((∀ m, m < max → sig m = false ∧
          ∃ t, fetch m = .ok t ∧ isTerminalStatus t = false) →
        (pollRun fetch sig max).ending = .deadline
        ∧ (pollRun fetch sig max).fetches = max
        ∧ (pollRun fetch sig max).yielded.length = max) := by
  refine ⟨pollGo_bounds fetch sig max 0, ?_, ?_⟩
  · intro i fuel s hsig hf ht
    exact pollGo_terminal fetch sig i fuel s hsig hf ht
  · intro h
    have hex := pollGo_exhaust fetch sig max 0 (by
      intro m hm
      simpa using h m hm)
    exact ⟨hex.1, hex.2.1, hex.2.2.1⟩

/-- Witness for `c5_poll_contract`: a first fetch returning `completed`
ends the run at once; a server that always answers `processing` exhausts a
budget of 2 with the deadline ending and exactly 2 fetches. -/
theorem c5_poll_contract_witness :
    ((fun _ => false : Nat → Bool) 0 = false
      ∧ (fun _ => (Except.ok (⟨"t", "completed", some "done", none⟩ : TaskStatus) :
            Except TaskForceAIError TaskStatus)) 0
          = .ok ⟨"t", "completed", some "done", none⟩
      ∧ isTerminalStatus ⟨"t", "completed", some "done", none⟩ = true)
    ∧ pollGo (fun _ => .ok ⟨"t", "completed", some "done", none⟩) (fun _ => false) 0 (0 + 1)
        = ⟨[⟨"t", "completed", some "done", none⟩], .finished, 1, 0⟩
    ∧ (pollRun (fun _ => .ok ⟨"t", "processing", none, none⟩) (fun _ => false) 2).ending
        = .deadline
    ∧ (pollRun (fun _ => .ok ⟨"t", "processing", none, none⟩) (fun _ => false) 2).fetches
        = 2 := by
  refine ⟨⟨rfl, rfl, rfl⟩, ?_, ?_, ?_⟩
  · exact (c5_poll_contract (fun _ => .ok ⟨"t", "completed", some "done", none⟩)
        (fun _ => false) 1).2.1 0 0 ⟨"t", "completed", some "done", none⟩ rfl rfl rfl
  · exact ((c5_poll_contract (fun _ => .ok ⟨"t", "processing", none, none⟩)
        (fun _ => false) 2).2.2
      (fun m _ => ⟨rfl, ⟨⟨"t", "processing", none, none⟩, rfl, rfl⟩⟩)).1
  · exact ((c5_poll_contract (fun _ => .ok ⟨"t", "processing", none, none⟩)
        (fun _ => false) 2).2.2
      (fun m _ => ⟨rfl, ⟨⟨"t", "processing", none, none⟩, rfl, rfl⟩⟩)).2.1

/-- C6: when, after a prefix of non-terminal successful fetches, fetch `j`
returns a `completed` status, `waitForCompletion` resolves with that value
if its result is non-empty, and fails with the deadline-exceeded error if
the terminal status is malformed (result missing or empty); the same
deadline-exceeded error is produced when all `maxAttempts` fetches stay
non-terminal. -/
theorem c6_wait_for_completion (fetch : Nat → Except TaskForceAIError TaskStatus)
    (sig : Nat → Bool) (max : Nat) :
    (∀ (j : Nat) (s : TaskStatus),
        (∀ m, m < j → sig m = false ∧
          ∃ t, fetch m = .ok t ∧ isTerminalStatus t = false) →
        j < max → sig j = false → fetch j = .ok s → s.status = "completed" →
        (resultTruthy s = true → waitForCompletion fetch sig max = .ok s)
        ∧ (resultTruthy s = false →
            waitForCompletion fetch sig max = .error deadlineError))
    ∧ ((∀ m, m < max → sig m = false ∧
          ∃ t, fetch m = .ok t ∧ isTerminalStatus t = false) →
        waitForCompletion fetch sig max = .error deadlineError) := by
  constructor
  · intro j s hpre hj hsig hf hcomp
    have hshift := waitConsume_shift fetch sig j 0 max
      (by intro m hm; simpa using hpre m hm) hj
    have hterm : isTerminalStatus s = true := isTerminalStatus_completed s hcomp
    obtain ⟨f, hfuel⟩ : ∃ f, max - j = f + 1 := ⟨max - j - 1, by omega⟩
    have hzero : (0 : Nat) + j = j := by omega
    rw [hzero, hfuel] at hshift
    rw [pollGo_terminal fetch sig j f s hsig hf hterm] at hshift
    constructor
    · intro htruthy
      unfold waitForCompletion pollRun
      rw [hshift]
      simp [consumeWait, hcomp, htruthy]
    · intro hfalsy
      unfold waitForCompletion pollRun
      rw [hshift]
      have hne : (("completed" : String) == "failed") = false := by decide
      simp [consumeWait, hcomp, hfalsy, hne, endingError]
  · intro h
    have hex := pollGo_exhaust fetch sig max 0 (by
      intro m hm
      simpa using h m hm)
    unfold waitForCompletion pollRun
    rw [consumeWait_nonterminal _ _ hex.2.2.2, hex.1]
    rfl

/-- Witness for `c6_wait_for_completion`: after one `processing` fetch the
second fetch is `completed` with result `done`, and `waitForCompletion`
resolves with it. -/
theorem c6_wait_for_completion_witness :
    ((∀ m, m < 1 → (fun _ => false : Nat → Bool) m = false ∧
        ∃ t, (fun n => if n = 0
                then (Except.ok (⟨"t", "processing", none, none⟩ : TaskStatus) :
                  Except TaskForceAIError TaskStatus)
                else .ok ⟨"t", "completed", some "done", none⟩) m = .ok t
          ∧ isTerminalStatus t = false)
      ∧ (1 : Nat) < 3
      ∧ resultTruthy ⟨"t", "completed", some "done", none⟩ = true)
    ∧ waitForCompletion
        (fun n => if n = 0
          then (Except.ok (⟨"t", "processing", none, none⟩ : TaskStatus) :
            Except TaskForceAIError TaskStatus)
          else .ok ⟨"t", "completed", some "done", none⟩)
        (fun _ => false) 3
      = .ok ⟨"t", "completed", some "done", none⟩ := by
  have hpre : ∀ m, m < 1 → (fun _ => false : Nat → Bool) m = false ∧
      ∃ t, (fun n => if n = 0
              then (Except.ok (⟨"t", "processing", none, none⟩ : TaskStatus) :
                Except TaskForceAIError TaskStatus)
              else .ok ⟨"t", "completed", some "done", none⟩) m = .ok t
        ∧ isTerminalStatus t = false := by
    intro m hm
    have hm0 : m = 0 := by omega
    subst hm0
    exact ⟨rfl, ⟨⟨"t", "processing", none, none⟩, rfl, rfl⟩⟩
  refine ⟨⟨hpre, by omega, rfl⟩, ?_⟩
  exact ((c6_wait_for_completion
      (fun n => if n = 0
        then (Except.ok (⟨"t", "processing", none, none⟩ : TaskStatus) :
          Except TaskForceAIError TaskStatus)
        else .ok ⟨"t", "completed", some "done", none⟩)
      (fun _ => false) 3).1 1 ⟨"t", "completed", some "done", none⟩
    hpre (by omega) rfl rfl rfl).1 rfl

/-- C7 (counterexample): supplying `vercelAiKey` with the (falsy) empty
string — a type-correct caller value — produces a body with no top-level
`vercelAiKey` field at all, refuting "present if and only if the caller
supplied a `vercelAiKey` option". -/
theorem c7_vercel_key_counterexample :
    ([(("vercelAiKey" : String), JsonValue.jstr "")].lookup "vercelAiKey"
        = some (JsonValue.jstr ""))
    ∧ submitTask "hi" [("vercelAiKey", JsonValue.jstr "")]
        = .ok ⟨"hi", [("silent", .jbool false), ("mock", .jbool false)], none⟩ :=
  ⟨rfl, rfl⟩

/-- C7 (amended): for every prompt with non-blank trim and every options
mapping, `submitTask` builds a body `{ prompt, options }` whose `options`
sub-object always carries `silent` and `mock` (defaulted to `false` when
unspecified), forwards every other caller key inside `options`, and never
nests `vercelAiKey` under `options`; the top-level `vercelAiKey` field is
present exactly when the caller supplied a truthy value (for strings: a
non-empty one), in which case it equals the supplied value. -/
theorem c7_submit_body :
    (∀ (p : String) (o : List (String × JsonValue)), trimChars p ≠ "" →
      ∃ b, submitTask p o = .ok b)
    ∧ (∀ (p : String) (o : List (String × JsonValue)) (b : SubmitBody),
        submitTask p o = .ok b →
        b.prompt = p
        ∧ b.options.lookup "silent" = some ((o.lookup "silent").getD (.jbool false))
        ∧ b.options.lookup "mock" = some ((o.lookup "mock").getD (.jbool false))
        ∧ b.options.lookup "vercelAiKey" = none
        ∧ (∀ k, k ≠ "silent" → k ≠ "mock" → k ≠ "vercelAiKey" →
            b.options.lookup k = o.lookup k)
        ∧ (b.vercelAiKey.isSome = true ↔
            ∃ val, o.lookup "vercelAiKey" = some val ∧ jsTruthy val = true)
        ∧ (∀ val, o.lookup "vercelAiKey" = some val → jsTruthy val = true →
            b.vercelAiKey = some val)) := by
  constructor
  · intro p o hp
    unfold submitTask
    rw [if_neg hp]
    exact ⟨_, rfl⟩
  · intro p o b hok
    unfold submitTask at hok
    by_cases hp : trimChars p = ""
    · rw [if_pos hp] at hok
      exact absurd hok (by simp)
    · rw [if_neg hp] at hok
      have hb := Except.ok.inj hok
      subst hb
      refine ⟨rfl, ?_, ?_, ?_, ?_, ?_, ?_⟩
      · simp [List.lookup]
      · have h1 : (("mock" : String) == "silent") = false := by decide
        simp [List.lookup, h1]
      · have h2 : (("vercelAiKey" : String) == "silent") = false := by decide
        have h3 : (("vercelAiKey" : String) == "mock") = false := by decide
        simp only [List.lookup, h2, h3]
        refine lookup_none_of_keys_ne "vercelAiKey" _ (fun kv hkv => ?_)
        have hpred := (List.mem_filter.mp hkv).2
        simp only [Bool.and_eq_true, bne_iff_ne] at hpred
        exact hpred.1.1
      · intro k hk1 hk2 hk3
        have hs : (k == "silent") = false := beq_eq_false_iff_ne.mpr hk1
        have hm : (k == "mock") = false := beq_eq_false_iff_ne.mpr hk2
        simp only [List.lookup, hs, hm]
        exact lookup_filter_irrelevant k hk3 hk1 hk2 o
      · dsimp only
        cases hv : o.lookup "vercelAiKey" with
        | none => simp [hv]
        | some val =>
          cases ht : jsTruthy val with
          | true => simp [hv, ht]
          | false => simp [hv, ht]
      · intro val hval htr
        dsimp only
        rw [hval]
        simp [htr]

/-- Witness for `c7_submit_body`: a non-empty prompt with a truthy
`vercelAiKey` and an extra caller key. -/
theorem c7_submit_body_witness :
    (trimChars "hello" ≠ ""
      ∧ submitTask "hello"
          [("vercelAiKey", JsonValue.jstr "vk"), ("extra", JsonValue.jnum 7)]
        = .ok ⟨"hello",
            [("silent", .jbool false), ("mock", .jbool false), ("extra", .jnum 7)],
            some (.jstr "vk")⟩)
    ∧ (⟨"hello",
          [("silent", .jbool false), ("mock", .jbool false), ("extra", .jnum 7)],
          some (.jstr "vk")⟩ : SubmitBody).options.lookup "extra"
        = [(("vercelAiKey" : String), JsonValue.jstr "vk"),
           ("extra", JsonValue.jnum 7)].lookup "extra"
    ∧ (⟨"hello",
          [("silent", .jbool false), ("mock", .jbool false), ("extra", .jnum 7)],
          some (.jstr "vk")⟩ : SubmitBody).vercelAiKey = some (.jstr "vk") := by
  refine ⟨⟨by decide, rfl⟩, ?_, ?_⟩
  · exact (c7_submit_body.2 "hello"
        [("vercelAiKey", JsonValue.jstr "vk"), ("extra", JsonValue.jnum 7)]
        ⟨"hello",
          [("silent", .jbool false), ("mock", .jbool false), ("extra", .jnum 7)],
          some (.jstr "vk")⟩ rfl).2.2.2.2.1 "extra" (by decide) (by decide) (by decide)
  · exact (c7_submit_body.2 "hello"
        [("vercelAiKey", JsonValue.jstr "vk"), ("extra", JsonValue.jnum 7)]
        ⟨"hello",
          [("silent", .jbool false), ("mock", .jbool false), ("extra", .jnum 7)],
          some (.jstr "vk")⟩ rfl).2.2.2.2.2.2 (.jstr "vk") rfl rfl

/-- C8: once the stream's cancel flag is set, the next pull raises the
`Task stream cancelled` error whenever the wrapped poll would have yielded
— whatever status the underlying fetch returns — and never yields;
`cancel()` is idempotent and the flag, once set, stays set; a pull made
while the flag is still unset behaves exactly as the plain poll pull, so
values already delivered to the consumer are not retroactively
invalidated. -/
theorem c8_cancel_semantics (fetch : Nat → Except TaskForceAIError TaskStatus)
    (sig : Nat → Bool) (max k : Nat) (c : Bool) :
    ((∀ s, (pollPull fetch sig max k).outcome = .emit s →
        (streamPull fetch sig max k true).outcome = .raises streamCancelledError)
      ∧ (∀ s, (streamPull fetch sig max k true).outcome ≠ .emit s))
    ∧ (cancelOp (cancelOp c) = cancelOp c ∧ cancelOp c = true)
    ∧ streamPull fetch sig max k false = pollPull fetch sig max k := by
  refine ⟨⟨?_, ?_⟩, ⟨rfl, rfl⟩, ?_⟩
  · intro s hs
    simp only [streamPull]
    rw [hs]
    simp
  · intro s
    simp only [streamPull]
    cases ho : (pollPull fetch sig max k).outcome <;> simp [ho]
  · simp only [streamPull]
    cases ho : (pollPull fetch sig max k).outcome <;> simp [ho]

/-- Witness for `c8_cancel_semantics`: a poll whose first pull would yield
`processing` instead raises the stream-cancelled error once the flag is
set. -/
theorem c8_cancel_semantics_witness :
    (pollPull (fun _ => .ok ⟨"t", "processing", none, none⟩) (fun _ => false) 3 0).outcome
        = .emit ⟨"t", "processing", none, none⟩
    ∧ (streamPull (fun _ => .ok ⟨"t", "processing", none, none⟩) (fun _ => false) 3 0
          true).outcome
        = .raises streamCancelledError :=
  ⟨rfl, (c8_cancel_semantics (fun _ => .ok ⟨"t", "processing", none, none⟩)
      (fun _ => false) 3 0 false).1.1 ⟨"t", "processing", none, none⟩ rfl⟩

/-- C9 (counterexample): consuming a stream handle a second time does
restart the underlying polling as a fresh, independent poll invocation:
with `twoPhaseServer` and budget 5, the first consumption performs 2
fetches and ends at `completed r1`; the second consumption performs 2
further fetches of its own — starting again from its loop index 0 with a
full budget — and yields a fresh, different sequence ending at
`completed r2`. -/
theorem c9_restart_counterexample :
    (consumeStreamTwice twoPhaseServer (fun _ => false) 5).first.fetches = 2
    ∧ (consumeStreamTwice twoPhaseServer (fun _ => false) 5).second.fetches = 2
    ∧ (consumeStreamTwice twoPhaseServer (fun _ => false) 5).second.yielded
        = [⟨"t", "processing", none, none⟩, ⟨"t", "completed", some "r2", none⟩]
    ∧ (consumeStreamTwice twoPhaseServer (fun _ => false) 5).second.yielded
        ≠ (consumeStreamTwice twoPhaseServer (fun _ => false) 5).first.yielded :=
  ⟨rfl, rfl, rfl, by decide⟩

/-- C9 (amended): each acquisition of the handle's iterator creates a fresh
generator wrapping a fresh poll invocation: when the handle is consumed a
second time, the second consumption performs at least one fetch of its
own, and its first yielded status is the server's next answer after the
first consumption — polling restarts from the generator's loop start with
a full attempt budget.  Only an individual iterator instance is
non-restartable. -/
theorem c9_fresh_poll_per_iteration
    (server : Nat → Except TaskForceAIError TaskStatus) (max : Nat) (s : TaskStatus)
    (hmax : 0 < max)
    (hs : server ((iterateStream server (fun _ => false) max 0).fetches) = .ok s) :
    1 ≤ (consumeStreamTwice server (fun _ => false) max).second.fetches
    ∧ (consumeStreamTwice server (fun _ => false) max).second.yielded.head?
        = some s := by
  obtain ⟨f, rfl⟩ : ∃ f, max = f + 1 := ⟨max - 1, by omega⟩
  have hsecond : (consumeStreamTwice server (fun _ => false) (f + 1)).second
      = pollGo
          (fun i => server ((iterateStream server (fun _ => false) (f + 1) 0).fetches + i))
          (fun _ => false) 0 (f + 1) := rfl
  have hfetch : (fun i =>
        server ((iterateStream server (fun _ => false) (f + 1) 0).fetches + i)) 0
      = Except.ok s := by
    show server ((iterateStream server (fun _ => false) (f + 1) 0).fetches + 0) = .ok s
    rw [Nat.add_zero]
    exact hs
  rw [hsecond]
  cases ht : isTerminalStatus s with
  | true =>
    rw [pollGo_terminal _ (fun _ => false) 0 f s rfl hfetch ht]
    exact ⟨by norm_num, rfl⟩
  | false =>
    rw [pollGo_step _ (fun _ => false) 0 f s rfl hfetch ht]
    refine ⟨?_, rfl⟩
    dsimp only
    omega

/-- Witness for `c9_fresh_poll_per_iteration` on `twoPhaseServer` with
budget 5: the second consumption's first yield is the server's third
answer. -/
theorem c9_fresh_poll_per_iteration_witness :
    ((0 : Nat) < 5
      ∧ twoPhaseServer ((iterateStream twoPhaseServer (fun _ => false) 5 0).fetches)
          = .ok ⟨"t", "processing", none, none⟩)
    ∧ 1 ≤ (consumeStreamTwice twoPhaseServer (fun _ => false) 5).second.fetches :=
  ⟨⟨by omega, rfl⟩, (c9_fresh_poll_per_iteration twoPhaseServer 5
      ⟨"t", "processing", none, none⟩ (by omega) rfl).1⟩

/-- C10: when cancel is set before a pull that would advance the poller
(previous yield non-terminal, budget remaining, external signal clear),
the failing pull still performs exactly one status fetch and invokes the
observer callback with the fetched status, and only then raises the
`Task stream cancelled` error; if the fetch itself fails, the transport
error propagates instead of the stream-cancelled error. -/
theorem c10_cancelled_pull_effects (fetch : Nat → Except TaskForceAIError TaskStatus)
    (sig : Nat → Bool) (max k : Nat)
    (hprev : k = 0 ∨ okTerminal (fetch (k - 1)) = false)
    (hk : k < max) (hsig : sig k = false) :
    (∀ s, fetch k = .ok s →
      streamPull fetch sig max k true = ⟨.raises streamCancelledError, 1, [s]⟩)
    ∧ (∀ e, fetch k = .error e →
      streamPull fetch sig max k true = ⟨.raises e, 1, []⟩) := by
  have hstep : pollPull fetch sig max k = pollPullStep fetch sig max k := by
    cases k with
    | zero => rfl
    | succ j =>
      rcases hprev with h0 | hterm
      · exact absurd h0 (by omega)
      · simp only [pollPull]
        rw [if_neg (by simpa using hterm)]
  have hnle : ¬ max ≤ k := by omega
  constructor
  · intro s hf
    have hpoll : pollPull fetch sig max k = ⟨.emit s, 1, [s]⟩ := by
      rw [hstep]
      simp [pollPullStep, hnle, hsig, hf]
    simp only [streamPull]
    rw [hpoll]
    simp
  · intro e hf
    have hpoll : pollPull fetch sig max k = ⟨.raises e, 1, []⟩ := by
      rw [hstep]
      simp [pollPullStep, hnle, hsig, hf]
    simp only [streamPull]
    rw [hpoll]

/-- Witness for `c10_cancelled_pull_effects`: a first pull under a set
cancel flag fetches once, observes `processing`, then raises the
stream-cancelled error. -/
theorem c10_cancelled_pull_effects_witness :
    ((0 : Nat) < 3
      ∧ (fun _ => false : Nat → Bool) 0 = false)
    ∧ streamPull (fun _ => .ok ⟨"t", "processing", none, none⟩) (fun _ => false) 3 0 true
        = ⟨.raises streamCancelledError, 1, [⟨"t", "processing", none, none⟩]⟩ :=
  ⟨⟨by omega, rfl⟩, (c10_cancelled_pull_effects
      (fun _ => .ok ⟨"t", "processing", none, none⟩) (fun _ => false) 3 0
      (Or.inl rfl) (by omega) rfl).1 ⟨"t", "processing", none, none⟩ rfl⟩
